import Mathlib

/-!
Shallow embedding of the command validation and execution pipeline of
`src/executor.ts` (class `CommandExecutor`), together with the data model of
`src/schema.ts`.  JavaScript runtime values that a parameter may hold
(`string | number | boolean`) are modelled by the inductive `Scalar`; the
JavaScript number type is restricted to integers, which covers every value the
source manipulates in the properties verified here.  Process spawning is an
effect: it is modelled by an explicit oracle `SpawnFn` mapping the executable
name and argument vector to the outcome that `Executable.spawnSync` produced
(a result record, or a thrown error message).
-/

set_option autoImplicit false

namespace McpCli

/-- The `type` field of an argument declaration: `"string" | "number" | "boolean"`. -/
inductive ArgumentType where
  | string
  | number
  | boolean
deriving DecidableEq

/-- A JavaScript scalar runtime value `string | number | boolean`
(numbers restricted to integers). -/
inductive Scalar where
  | str : String → Scalar
  | num : Int → Scalar
  | bool : Bool → Scalar
deriving DecidableEq

/-- `typeof value === 'string'`. -/
def typeofIsString : Scalar → Bool
  | .str _ => true
  | _ => false

/-- `typeof value === 'number'`. -/
def typeofIsNumber : Scalar → Bool
  | .num _ => true
  | _ => false

/-- `typeof value === 'boolean'`. -/
def typeofIsBoolean : Scalar → Bool
  | .bool _ => true
  | _ => false

/-- JavaScript strict equality `value === <string literal>`: true only when
`value` is a string with exactly that text. -/
def strictEqString (value : Scalar) (s : String) : Bool :=
  match value with
  | .str t => t == s
  | _ => false

/-- `String(value)`: the canonical textual rendering of a scalar. -/
def jsString : Scalar → String
  | .str s => s
  | .num n => toString n
  | .bool true => "true"
  | .bool false => "false"

/-- Whitespace stripped by the JavaScript `Number()` string coercion. -/
def isJsWhitespace (c : Char) : Bool :=
  c == ' ' || c == '\t' || c == '\n' || c == '\r' || c == '\x0b' || c == '\x0c'

/-- Value of a list of decimal digit characters. -/
def digitsVal (l : List Char) : Nat :=
  l.foldl (fun acc c => 10 * acc + (c.toNat - 48)) 0

/-- Model of the JavaScript `Number(<string>)` coercion, restricted to
optionally signed decimal integer literals (the only numeric strings the
verified properties exercise).  `none` stands for `NaN`.  The coercion first
strips surrounding whitespace; the empty (or all-whitespace) string coerces
to `0`. -/
def jsStringToNumber (s : String) : Option Int :=
  let chars := ((s.data.dropWhile isJsWhitespace).reverse.dropWhile isJsWhitespace).reverse
  match chars with
  | [] => some 0
  | '-' :: rest =>
      if rest ≠ [] ∧ rest.all Char.isDigit then some (-(Int.ofNat (digitsVal rest))) else none
  | '+' :: rest =>
      if rest ≠ [] ∧ rest.all Char.isDigit then some (Int.ofNat (digitsVal rest)) else none
  | l => if l.all Char.isDigit then some (Int.ofNat (digitsVal l)) else none

/-- Model of the JavaScript `Number(value)` coercion on a scalar; `none`
stands for `NaN`.  `Number(true) = 1`, `Number(false) = 0`, numbers coerce to
themselves, strings via `jsStringToNumber`. -/
def jsNumber : Scalar → Option Int
  | .num n => some n
  | .bool true => some 1
  | .bool false => some 0
  | .str s => jsStringToNumber s

/-- `ICommandArgument` of `src/schema.ts`. -/
structure ICommandArgument where
  name : String
  description : String
  type : ArgumentType
  required : Bool
  defaultValue : Option Scalar
deriving DecidableEq

/-- `ICommandLineEntry` of `src/schema.ts`. -/
structure ICommandLineEntry where
  name : String
  description : String
  command : String
  arguments : List ICommandArgument
deriving DecidableEq

/-- `ICommandExecutionParams`: a JavaScript object mapping argument names to
scalars, modelled as an association list in property insertion order (keys
unique in any object the protocol can produce; lookup takes the first match). -/
abbrev ICommandExecutionParams := List (String × Scalar)

/-- Property read `params[name]`: `none` models `undefined`. -/
def getParam : ICommandExecutionParams → String → Option Scalar
  | [], _ => none
  | (k, v) :: rest, name => if k = name then some v else getParam rest name

/-- `ICommandExecutionResult` of `src/executor.ts`. -/
structure ICommandExecutionResult where
  success : Bool
  stdout : String
  stderr : String
  exitCode : Int
deriving DecidableEq

/-- The record returned by `Executable.spawnSync`: `status` is
`number | null` (null when the child terminated without an exit status, e.g.
killed by a signal), and the captured streams may be absent. -/
structure SpawnSyncResult where
  status : Option Int
  stdout : Option String
  stderr : Option String
deriving DecidableEq

/-- Outcome of one `Executable.spawnSync` call: either it returns a result
record, or it throws (e.g. executable not found) with the given error
message (`error.message`, or `String(error)` for a non-`Error` throw). -/
inductive SpawnOutcome where
  | returns : SpawnSyncResult → SpawnOutcome
  | throws : String → SpawnOutcome
deriving DecidableEq

/-- Oracle for the process-spawning effect: what `Executable.spawnSync`
does when invoked with a given executable name and argument vector. -/
abbrev SpawnFn := String → List String → SpawnOutcome

/-- `CommandExecutor._validateArgumentType`: the `switch` on `argDef.type`. -/
def _validateArgumentType (argDef : ICommandArgument) (value : Scalar) : Option String :=
  match argDef.type with
  | .string =>
      if !typeofIsString value then
        some ("Argument '" ++ argDef.name ++ "' must be a string")
      else
        none
  | .number =>
      if !typeofIsNumber value && (jsNumber value).isNone then
        some ("Argument '" ++ argDef.name ++ "' must be a number")
      else
        none
  | .boolean =>
      if !typeofIsBoolean value && !strictEqString value "true"
          && !strictEqString value "false" then
        some ("Argument '" ++ argDef.name ++ "' must be a boolean")
      else
        none

/-- Body of the first loop of `validateParameters`: push a missing-required
error for one declared argument. -/
def pushRequiredError (params : ICommandExecutionParams) (errors : List String)
    (arg : ICommandArgument) : List String :=
  if arg.required && (getParam params arg.name).isNone then
    errors ++ ["Required argument '" ++ arg.name ++ "' is missing"]
  else
    errors

/-- Body of the second loop of `validateParameters`: for one
`Object.entries(params)` entry, look up the declaration by name and push the
type error, if any; an entry with no matching declaration is ignored. -/
def pushTypeError (command : ICommandLineEntry) (errors : List String)
    (kv : String × Scalar) : List String :=
  match command.arguments.find? (fun a => a.name == kv.1) with
  | some argDef =>
      match _validateArgumentType argDef kv.2 with
      | some typeError => errors ++ [typeError]
      | none => errors
  | none => errors

/-- `CommandExecutor.validateParameters`: collect missing-required errors over
the declared arguments, then type errors over the supplied entries. -/
def validateParameters (command : ICommandLineEntry)
    (params : ICommandExecutionParams) : List String :=
  let requiredErrors := command.arguments.foldl (pushRequiredError params) []
  params.foldl (pushTypeError command) requiredErrors

/-- Body of the loop of `_buildCommandArguments`: resolve one declared
argument (`params[name]`, else `defaultValue`, else skip) and push its flag
token and rendered value. -/
def pushArgument (params : ICommandExecutionParams) (args : List String)
    (argDef : ICommandArgument) : List String :=
  let value : Option Scalar :=
    match getParam params argDef.name with
    | some v => some v
    | none => argDef.defaultValue
  match value with
  | none => args
  | some v => args ++ ["--" ++ argDef.name, jsString v]

/-- `CommandExecutor._buildCommandArguments`. -/
def _buildCommandArguments (command : ICommandLineEntry)
    (params : ICommandExecutionParams) : List String :=
  command.arguments.foldl (pushArgument params) []

/-- `command.command.split(' ')`. -/
def commandParts (command : ICommandLineEntry) : List String :=
  command.command.splitOn " "

/-- Conversion of one spawn outcome into the result record of
`executeCommand`: on a returned record, `success = (result.status === 0)`,
`stdout = result.stdout || ''`, `stderr = result.stderr || ''` and
`exitCode = result.status || 0` (so a `null` status and a `0` status both
yield `exitCode = 0`); on a throw, the `catch` block of the source yields
`success = false, stdout = '', stderr = <message>, exitCode = -1`. -/
def spawnOutcomeResult : SpawnOutcome → ICommandExecutionResult
  | .returns result =>
      { success := result.status == some 0
        stdout := result.stdout.getD ""
        stderr := result.stderr.getD ""
        exitCode := result.status.getD 0 }
  | .throws errorMsg =>
      { success := false
        stdout := ""
        stderr := errorMsg
        exitCode := -1 }

/-- `CommandExecutor.executeCommand`: build the argument vector, split the
command template into executable and base arguments, invoke the spawn oracle,
and convert its outcome into an `ICommandExecutionResult`.  The `try` block
of the source surrounds the whole body; in this embedding argument building
and splitting are total, so only the spawn can throw. -/
def executeCommand (command : ICommandLineEntry) (params : ICommandExecutionParams)
    (spawnSync : SpawnFn) : ICommandExecutionResult :=
  let args := _buildCommandArguments command params
  let parts := commandParts command
  let executable := parts.headD ""
  let baseArgs := parts.tail
  let allArgs := baseArgs ++ args
  spawnOutcomeResult (spawnSync executable allArgs)

/-! ### Specification views of the two loops

The imperative loops above are related to `List.filterMap` forms, from which
the per-constraint behaviour of validation and argument building is read off.
-/

/-- The missing-required error that the first loop of `validateParameters`
contributes for one declared argument, if any. -/
def requiredError? (params : ICommandExecutionParams)
    (arg : ICommandArgument) : Option String :=
  if arg.required && (getParam params arg.name).isNone then
    some ("Required argument '" ++ arg.name ++ "' is missing")
  else
    none

/-- The type error that the second loop of `validateParameters` contributes
for one supplied entry, if any. -/
def typeError? (command : ICommandLineEntry) (kv : String × Scalar) : Option String :=
  match command.arguments.find? (fun a => a.name == kv.1) with
  | some argDef => _validateArgumentType argDef kv.2
  | none => none

/-- The value `_buildCommandArguments` resolves for one declared argument:
the supplied parameter if present, else the declared default, else nothing. -/
def resolvedValue (params : ICommandExecutionParams)
    (argDef : ICommandArgument) : Option Scalar :=
  match getParam params argDef.name with
  | some v => some v
  | none => argDef.defaultValue

/-- The flag/value pair one declared argument contributes to the vector. -/
def buildPair? (params : ICommandExecutionParams)
    (argDef : ICommandArgument) : Option (String × String) :=
  (resolvedValue params argDef).map fun v => ("--" ++ argDef.name, jsString v)

/-- The two consecutive vector tokens of an optional flag/value pair. -/
def pairTokens : Option (String × String) → List String
  | none => []
  | some pr => [pr.1, pr.2]

theorem pushRequiredError_eq (params : ICommandExecutionParams)
    (errors : List String) (arg : ICommandArgument) :
    pushRequiredError params errors arg = errors ++ (requiredError? params arg).toList := by
  unfold pushRequiredError requiredError?
  split <;> simp

theorem pushTypeError_eq (command : ICommandLineEntry)
    (errors : List String) (kv : String × Scalar) :
    pushTypeError command errors kv = errors ++ (typeError? command kv).toList := by
  unfold pushTypeError typeError?
  rcases hf : command.arguments.find? (fun a => a.name == kv.1) with _ | argDef
  · simp [hf]
  · rcases h : _validateArgumentType argDef kv.2 with _ | e <;> simp [hf, h]

theorem pushArgument_eq (params : ICommandExecutionParams)
    (args : List String) (argDef : ICommandArgument) :
    pushArgument params args argDef = args ++ pairTokens (buildPair? params argDef) := by
  unfold pushArgument buildPair? resolvedValue
  rcases getParam params argDef.name with _ | v
  · rcases argDef.defaultValue with _ | d <;> simp [pairTokens]
  · simp [pairTokens]

theorem foldl_append_bind {α β : Type} (g : α → List β) (step : List β → α → List β)
    (hstep : ∀ acc a, step acc a = acc ++ g a) :
    ∀ (l : List α) (acc : List β), l.foldl step acc = acc ++ l.flatMap g := by
  intro l
  induction l with
  | nil => intro acc; simp
  | cons a t ih => intro acc; simp [hstep, ih, List.append_assoc]

theorem bind_toList_eq_filterMap {α β : Type} (f : α → Option β) (l : List α) :
    (l.flatMap fun a => (f a).toList) = l.filterMap f := by
  induction l with
  | nil => simp
  | cons a t ih => rcases h : f a with _ | b <;> simp [List.filterMap_cons, h, ih]

theorem flatMap_pairTokens {α : Type} (f : α → Option (String × String)) (l : List α) :
    (l.flatMap fun a => pairTokens (f a)) =
      (l.filterMap f).flatMap fun pr => [pr.1, pr.2] := by
  induction l with
  | nil => simp
  | cons a t ih =>
      rw [List.flatMap_cons, ih]
      rcases h : f a with _ | pr <;> simp [pairTokens, h, List.filterMap_cons]

/-- `validateParameters` decomposed: one missing-required error per violated
requiredness constraint (in declaration order), followed by one type error
per violating supplied entry (in insertion order). -/
theorem validateParameters_eq (command : ICommandLineEntry)
    (params : ICommandExecutionParams) :
    validateParameters command params =
      command.arguments.filterMap (requiredError? params)
        ++ params.filterMap (typeError? command) := by
  unfold validateParameters
  rw [foldl_append_bind _ _ (pushRequiredError_eq params),
    foldl_append_bind _ _ (pushTypeError_eq command),
    bind_toList_eq_filterMap, bind_toList_eq_filterMap]
  simp

/-- `_buildCommandArguments` decomposed: the flag/value pairs of the resolved
declared arguments, in declaration order, flattened two tokens per pair. -/
theorem buildCommandArguments_eq (command : ICommandLineEntry)
    (params : ICommandExecutionParams) :
    _buildCommandArguments command params =
      (command.arguments.filterMap (buildPair? params)).flatMap
        fun pr => [pr.1, pr.2] := by
  unfold _buildCommandArguments
  rw [foldl_append_bind _ _ (pushArgument_eq params)]
  simp only [List.nil_append]
  exact flatMap_pairTokens (buildPair? params) command.arguments

/-! ### Error-message discrimination -/

theorem string_append_assoc (x y z : String) : x ++ y ++ z = x ++ (y ++ z) :=
  String.ext (by simp [String.data_append])

theorem missingMsg_inj {n m : String}
    (h : "Required argument '" ++ n ++ "' is missing"
        = "Required argument '" ++ m ++ "' is missing") : n = m := by
  have h2 := congrArg String.data h
  simp only [String.data_append, List.append_assoc] at h2
  exact String.ext (List.append_cancel_right (List.append_cancel_left h2))

theorem missingMsg_ne_typeMsg (n m t : String) :
    "Required argument '" ++ n ++ "' is missing"
      ≠ "Argument '" ++ m ++ "' must be a " ++ t := by
  intro h
  have h2 := congrArg String.data h
  simp only [String.data_append] at h2
  simp at h2

theorem flagToken_inj {k n : String} (h : "--" ++ k = "--" ++ n) : k = n := by
  have h2 := congrArg String.data h
  simp only [String.data_append] at h2
  exact String.ext (List.append_cancel_left h2)

/-- Every error produced by `_validateArgumentType` has the shape
`Argument '<name>' must be a <type>`. -/
theorem validateArgumentType_shape (a : ICommandArgument) (v : Scalar) (m : String)
    (h : _validateArgumentType a v = some m) :
    ∃ t, m = "Argument '" ++ a.name ++ "' must be a " ++ t := by
  rcases a with ⟨name, desc, ty, req, dv⟩
  cases ty
  · simp only [_validateArgumentType] at h
    split at h
    · exact ⟨"string", by injection h with h2; rw [← h2, string_append_assoc ("Argument '" ++ name) "' must be a " "string"]; congr 1⟩
    · exact Option.noConfusion h
  · simp only [_validateArgumentType] at h
    split at h
    · exact ⟨"number", by injection h with h2; rw [← h2, string_append_assoc ("Argument '" ++ name) "' must be a " "number"]; congr 1⟩
    · exact Option.noConfusion h
  · simp only [_validateArgumentType] at h
    split at h
    · exact ⟨"boolean", by injection h with h2; rw [← h2, string_append_assoc ("Argument '" ++ name) "' must be a " "boolean"]; congr 1⟩
    · exact Option.noConfusion h

/-! ### Sample declarations used by witnesses and counterexamples -/

/-- A command with no declared arguments. -/
def sampleCommand : ICommandLineEntry :=
  { name := "echo-test", description := "prints its arguments", command := "echo",
    arguments := [] }

/-- A spawn oracle whose child terminates without an exit status
(`status = null`, e.g. the process was killed by a signal). -/
def signalKilledSpawn : SpawnFn :=
  fun _ _ => .returns { status := none, stdout := some "", stderr := some "" }

/-- A spawn outcome with a non-`null` status (a numeric exit status), or a
throw; the only outcome excluded is a returned record with `status = null`. -/
def statusNotNull : SpawnOutcome → Prop
  | .returns r => r.status ≠ none
  | .throws _ => True

theorem spawnOutcomeResult_success_iff (o : SpawnOutcome) (h : statusNotNull o) :
    (spawnOutcomeResult o).success = true ↔ (spawnOutcomeResult o).exitCode = 0 := by
  rcases o with r | msg
  · rcases r with ⟨st, out, err⟩
    rcases st with _ | s
    · exact absurd rfl h
    · simp [spawnOutcomeResult]
  · simp [spawnOutcomeResult, statusNotNull]

/-! ### Claims -/

/-- C1 (counterexample): when the spawned child terminates without an exit
status (`result.status = null`), `executeCommand` returns `success = false`
(since `null === 0` is false) together with `exitCode = 0` (since
`null || 0` is `0`), so `success` is not equivalent to `exitCode == 0`. -/
theorem claim_C1_counterexample :
    (executeCommand sampleCommand [] signalKilledSpawn).success = false ∧
      (executeCommand sampleCommand [] signalKilledSpawn).exitCode = 0 :=
  ⟨rfl, rfl⟩

/-- C1 (amended): provided every spawn outcome either throws or returns a
non-`null` exit status, the `success` field of the result of `executeCommand`
is true iff the `exitCode` field equals `0`; when the spawn returns a `null`
status (child terminated by a signal) the result instead has
`success = false` and `exitCode = 0`. -/
theorem claim_C1 (command : ICommandLineEntry) (params : ICommandExecutionParams)
    (spawnSync : SpawnFn) (h : ∀ e a, statusNotNull (spawnSync e a)) :
    (executeCommand command params spawnSync).success = true ↔
      (executeCommand command params spawnSync).exitCode = 0 := by
  unfold executeCommand
  exact spawnOutcomeResult_success_iff _ (h _ _)

/-- C1 (witness): the amended equivalence at a spawn returning exit status 2. -/
theorem claim_C1_witness :
    (executeCommand sampleCommand []
        (fun _ _ => .returns { status := some 2, stdout := some "", stderr := some "boom" })).success = true ↔
      (executeCommand sampleCommand []
        (fun _ _ => .returns { status := some 2, stdout := some "", stderr := some "boom" })).exitCode = 0 :=
  claim_C1 sampleCommand [] _ (by intro e a; simp [statusNotNull])

/-- C2: when the spawn throws (e.g. the target executable does not exist),
`executeCommand` still returns a result — the embedding is a total function —
namely `success = false, exitCode = -1, stdout = ""` with the failure
description in `stderr`, which is non-empty whenever the description is. -/
theorem claim_C2 (command : ICommandLineEntry) (params : ICommandExecutionParams)
    (msg : String) (h : msg ≠ "") :
    executeCommand command params (fun _ _ => .throws msg) =
      { success := false, stdout := "", stderr := msg, exitCode := -1 } ∧
    (executeCommand command params (fun _ _ => .throws msg)).stderr ≠ "" :=
  ⟨rfl, h⟩

/-- C2 (witness): the throw conversion at a concrete command and message. -/
theorem claim_C2_witness :
    executeCommand sampleCommand [] (fun _ _ => .throws "spawn ENOENT") =
      { success := false, stdout := "", stderr := "spawn ENOENT", exitCode := -1 } ∧
    (executeCommand sampleCommand [] (fun _ _ => .throws "spawn ENOENT")).stderr ≠ "" :=
  claim_C2 sampleCommand [] "spawn ENOENT" (by decide)

theorem filterMap_congr_mem {α β : Type} {l : List α} {f g : α → Option β}
    (h : ∀ a ∈ l, f a = g a) : l.filterMap f = l.filterMap g := by
  induction l with
  | nil => rfl
  | cons a t ih =>
      rw [List.filterMap_cons, List.filterMap_cons, h a (List.mem_cons_self a t),
        ih fun x hx => h x (List.mem_cons_of_mem a hx)]

/-- A command declaring a single optional numeric argument with default 10,
and that argument (spec scenario of C6). -/
def countArgument : ICommandArgument :=
  { name := "count", description := "how many", type := .number, required := false,
    defaultValue := some (.num 10) }

def countCommand : ICommandLineEntry :=
  { name := "count-cmd", description := "", command := "tool run",
    arguments := [countArgument] }

/-- C3: a parameter-map key matching no declared argument name is inert —
prepending such an entry changes neither the validation errors nor the built
argument vector, and no flag token of the vector is the flag for that key
(every flag token is `--<name>` of a declared argument, via the pair
decomposition of `_buildCommandArguments` asserted as the third conjunct). -/
theorem claim_C3 (command : ICommandLineEntry) (params : ICommandExecutionParams)
    (key : String) (v : Scalar) (h : ∀ a ∈ command.arguments, a.name ≠ key) :
    validateParameters command ((key, v) :: params) = validateParameters command params ∧
    _buildCommandArguments command ((key, v) :: params) = _buildCommandArguments command params ∧
    _buildCommandArguments command params =
      (command.arguments.filterMap (buildPair? params)).flatMap (fun pr => [pr.1, pr.2]) ∧
    ("--" ++ key) ∉ (command.arguments.filterMap (buildPair? params)).map Prod.fst := by
  have hget : ∀ a ∈ command.arguments,
      getParam ((key, v) :: params) a.name = getParam params a.name := by
    intro a ha
    have hne : ¬ key = a.name := fun he => h a ha he.symm
    simp [getParam, hne]
  refine ⟨?_, ?_, buildCommandArguments_eq command params, ?_⟩
  · have hreq : command.arguments.filterMap (requiredError? ((key, v) :: params))
        = command.arguments.filterMap (requiredError? params) :=
      filterMap_congr_mem fun a ha => by unfold requiredError?; rw [hget a ha]
    have htype : typeError? command (key, v) = none := by
      unfold typeError?
      have hf : command.arguments.find? (fun a => a.name == key) = none :=
        List.find?_eq_none.mpr fun a ha => by simp [h a ha]
      rw [hf]
    rw [validateParameters_eq, validateParameters_eq, hreq, List.filterMap_cons, htype]
  · have hbp : ∀ a ∈ command.arguments,
        buildPair? ((key, v) :: params) a = buildPair? params a := fun a ha => by
      unfold buildPair? resolvedValue; rw [hget a ha]
    rw [buildCommandArguments_eq, buildCommandArguments_eq, filterMap_congr_mem hbp]
  · intro hmem
    rcases List.mem_map.mp hmem with ⟨pr, hpr, hfst⟩
    rcases List.mem_filterMap.mp hpr with ⟨a, ha, hba⟩
    unfold buildPair? at hba
    rcases hr : resolvedValue params a with _ | w <;> rw [hr] at hba
    · exact Option.noConfusion hba
    · rw [Option.map_some'] at hba
      injection hba with hba2
      rw [← hba2] at hfst
      exact h a ha (flagToken_inj hfst)

/-- C3 (witness): the inertness of the undeclared key `other` on the
one-argument `countCommand`. -/
theorem claim_C3_witness :
    validateParameters countCommand (("other", .str "x") :: [("count", .num 3)])
        = validateParameters countCommand [("count", .num 3)] ∧
    _buildCommandArguments countCommand (("other", .str "x") :: [("count", .num 3)])
        = _buildCommandArguments countCommand [("count", .num 3)] ∧
    _buildCommandArguments countCommand [("count", .num 3)] =
      (countCommand.arguments.filterMap (buildPair? [("count", .num 3)])).flatMap
        (fun pr => [pr.1, pr.2]) ∧
    ("--" ++ "other")
      ∉ (countCommand.arguments.filterMap (buildPair? [("count", .num 3)])).map Prod.fst :=
  claim_C3 countCommand [("count", .num 3)] "other" (.str "x")
    (by intro a ha
        simp only [countCommand, countArgument, List.mem_singleton] at ha
        subst ha
        decide)

/-- C4: a required argument absent from the parameter map contributes exactly
the message `Required argument '<name>' is missing` to the validation errors;
an absent argument whose name is declared only with `required = false`
contributes no such error. -/
theorem claim_C4 (command : ICommandLineEntry) (params : ICommandExecutionParams)
    (arg : ICommandArgument) (hmem : arg ∈ command.arguments)
    (habs : getParam params arg.name = none) :
    (arg.required = true →
      ("Required argument '" ++ arg.name ++ "' is missing")
        ∈ validateParameters command params) ∧
    ((∀ a ∈ command.arguments, a.name = arg.name → a.required = false) →
      ("Required argument '" ++ arg.name ++ "' is missing")
        ∉ validateParameters command params) := by
  constructor
  · intro hreq
    rw [validateParameters_eq]
    refine List.mem_append.mpr (Or.inl (List.mem_filterMap.mpr ⟨arg, hmem, ?_⟩))
    unfold requiredError?
    rw [hreq, habs]
    simp
  · intro hopt hmem2
    rw [validateParameters_eq] at hmem2
    rcases List.mem_append.mp hmem2 with hin | hin
    · rcases List.mem_filterMap.mp hin with ⟨a, ha, hra⟩
      unfold requiredError? at hra
      split at hra
      next hcond =>
        injection hra with hra2
        have hname := missingMsg_inj hra2
        have hfalse := hopt a ha hname
        rw [hfalse] at hcond
        simp at hcond
      next => exact Option.noConfusion hra
    · rcases List.mem_filterMap.mp hin with ⟨kv, hkv, htv⟩
      unfold typeError? at htv
      rcases hf : command.arguments.find? (fun a => a.name == kv.1) with _ | ad <;> rw [hf] at htv
      · exact Option.noConfusion htv
      · rcases validateArgumentType_shape ad kv.2 _ htv with ⟨t, ht⟩
        exact missingMsg_ne_typeMsg arg.name ad.name t ht

/-- A command declaring two required string arguments and one optional
numeric argument. -/
def alphaArgument : ICommandArgument :=
  { name := "alpha", description := "", type := .string, required := true,
    defaultValue := none }

def betaArgument : ICommandArgument :=
  { name := "beta", description := "", type := .string, required := true,
    defaultValue := none }

def gammaArgument : ICommandArgument :=
  { name := "gamma", description := "", type := .number, required := false,
    defaultValue := none }

def multiCommand : ICommandLineEntry :=
  { name := "multi", description := "", command := "tool",
    arguments := [alphaArgument, betaArgument, gammaArgument] }

/-- C4 (witness): with an empty parameter map, the required `alpha` yields
its missing-argument message and the optional `gamma` yields none. -/
theorem claim_C4_witness :
    ((alphaArgument.required = true →
      ("Required argument '" ++ alphaArgument.name ++ "' is missing")
        ∈ validateParameters multiCommand []) ∧
    ((∀ a ∈ multiCommand.arguments, a.name = alphaArgument.name → a.required = false) →
      ("Required argument '" ++ alphaArgument.name ++ "' is missing")
        ∉ validateParameters multiCommand [])) ∧
    ((gammaArgument.required = true →
      ("Required argument '" ++ gammaArgument.name ++ "' is missing")
        ∈ validateParameters multiCommand []) ∧
    ((∀ a ∈ multiCommand.arguments, a.name = gammaArgument.name → a.required = false) →
      ("Required argument '" ++ gammaArgument.name ++ "' is missing")
        ∉ validateParameters multiCommand [])) :=
  ⟨claim_C4 multiCommand [] alphaArgument (by simp [multiCommand]) rfl,
   claim_C4 multiCommand [] gammaArgument (by simp [multiCommand]) rfl⟩

theorem flatMap_congr_mem {α β : Type} {l : List α} {f g : α → List β}
    (h : ∀ a ∈ l, f a = g a) : l.flatMap f = l.flatMap g := by
  induction l with
  | nil => rfl
  | cons a t ih =>
      rw [List.flatMap_cons, List.flatMap_cons, h a (List.mem_cons_self a t),
        ih fun x hx => h x (List.mem_cons_of_mem a hx)]

/-- C5: the argument vector is the concatenation, in declaration order (the
order of `command.arguments`, via `List.filterMap`), of one flag token
`--<name>` followed by the rendered value per resolved argument; the vector
is unchanged under any reordering of the parameter map (any map with the
same lookups). -/
theorem claim_C5 (command : ICommandLineEntry) (params params2 : ICommandExecutionParams)
    (h : ∀ k, getParam params k = getParam params2 k) :
    _buildCommandArguments command params =
      (command.arguments.filterMap (buildPair? params)).flatMap (fun pr => [pr.1, pr.2]) ∧
    (∀ pr ∈ command.arguments.filterMap (buildPair? params),
      ∃ a ∈ command.arguments, ∃ v, resolvedValue params a = some v ∧
        pr = ("--" ++ a.name, jsString v)) ∧
    _buildCommandArguments command params = _buildCommandArguments command params2 := by
  refine ⟨buildCommandArguments_eq command params, ?_, ?_⟩
  · intro pr hpr
    rcases List.mem_filterMap.mp hpr with ⟨a, ha, hba⟩
    unfold buildPair? at hba
    rcases hr : resolvedValue params a with _ | w <;> rw [hr] at hba
    · exact Option.noConfusion hba
    · rw [Option.map_some'] at hba
      injection hba with hba2
      exact ⟨a, ha, w, hr, hba2.symm⟩
  · rw [buildCommandArguments_eq, buildCommandArguments_eq]
    have hbp : ∀ a ∈ command.arguments, buildPair? params a = buildPair? params2 a := by
      intro a _
      unfold buildPair? resolvedValue
      rw [h a.name]
    rw [filterMap_congr_mem hbp]

/-- C5 (witness): the two required arguments of `multiCommand` supplied in
reversed insertion order produce the same vector as in declaration order. -/
theorem claim_C5_witness :
    _buildCommandArguments multiCommand [("beta", .str "b"), ("alpha", .str "a")] =
      (multiCommand.arguments.filterMap
        (buildPair? [("beta", .str "b"), ("alpha", .str "a")])).flatMap
        (fun pr => [pr.1, pr.2]) ∧
    (∀ pr ∈ multiCommand.arguments.filterMap
        (buildPair? [("beta", .str "b"), ("alpha", .str "a")]),
      ∃ a ∈ multiCommand.arguments, ∃ v,
        resolvedValue [("beta", .str "b"), ("alpha", .str "a")] a = some v ∧
        pr = ("--" ++ a.name, jsString v)) ∧
    _buildCommandArguments multiCommand [("beta", .str "b"), ("alpha", .str "a")] =
      _buildCommandArguments multiCommand [("alpha", .str "a"), ("beta", .str "b")] :=
  claim_C5 multiCommand [("beta", .str "b"), ("alpha", .str "a")]
    [("alpha", .str "a"), ("beta", .str "b")]
    (by intro k
        by_cases h1 : "beta" = k
        · by_cases h2 : "alpha" = k
          · exact absurd (h2.trans h1.symm) (by decide)
          · simp [getParam, h1, h2]
        · by_cases h2 : "alpha" = k
          · simp [getParam, h1, h2]
          · simp [getParam, h1, h2])

/-- C6: every declared argument resolves to the supplied parameter value if
present, else to the declared default if present, else contributes nothing
(the vector is the flattening of this per-argument resolution); in
particular the optional numeric argument `count` with default `10` and an
empty parameter map yields exactly the tokens `--count` and `10`. -/
theorem claim_C6 (command : ICommandLineEntry) (params : ICommandExecutionParams) :
    _buildCommandArguments command params =
      command.arguments.flatMap (fun a =>
        match getParam params a.name with
        | some v => ["--" ++ a.name, jsString v]
        | none =>
          match a.defaultValue with
          | some d => ["--" ++ a.name, jsString d]
          | none => []) ∧
    _buildCommandArguments countCommand [] = ["--count", "10"] := by
  constructor
  · rw [buildCommandArguments_eq, ← flatMap_pairTokens]
    apply flatMap_congr_mem
    intro a _
    unfold pairTokens buildPair? resolvedValue
    rcases getParam params a.name with _ | v
    · rcases a.defaultValue with _ | d <;> simp
    · simp
  · rfl

/-- Validation of a one-argument command supplied exactly its own argument
name reduces to the type check of that argument. -/
theorem validateParameters_single (arg : ICommandArgument) (cmd : ICommandLineEntry)
    (hargs : cmd.arguments = [arg]) (v : Scalar) :
    validateParameters cmd [(arg.name, v)] = (_validateArgumentType arg v).toList := by
  have hg : getParam [(arg.name, v)] arg.name = some v := by simp [getParam]
  rw [validateParameters_eq, hargs]
  simp [requiredError?, typeError?, hargs, hg, List.filterMap_cons]
  rcases _validateArgumentType arg v with _ | e <;> rfl

/-- C7: for a boolean-typed argument, a native boolean and the literal
strings `true` and `false` validate, and every other string produces the
error `Argument '<name>' must be a boolean`; acceptance by the type check is
exactly boolean type or those two literals. -/
theorem claim_C7 (arg : ICommandArgument) (cmd : ICommandLineEntry)
    (hty : arg.type = .boolean) (hargs : cmd.arguments = [arg]) :
    (∀ b, validateParameters cmd [(arg.name, .bool b)] = []) ∧
    validateParameters cmd [(arg.name, .str "true")] = [] ∧
    validateParameters cmd [(arg.name, .str "false")] = [] ∧
    (∀ s, s ≠ "true" → s ≠ "false" →
      validateParameters cmd [(arg.name, .str s)] =
        ["Argument '" ++ arg.name ++ "' must be a boolean"]) ∧
    (∀ v, _validateArgumentType arg v = none ↔
      (typeofIsBoolean v || strictEqString v "true" || strictEqString v "false") = true) := by
  refine ⟨?_, ?_, ?_, ?_, ?_⟩
  · intro b
    rw [validateParameters_single arg cmd hargs]
    simp [_validateArgumentType, hty, typeofIsBoolean]
  · rw [validateParameters_single arg cmd hargs]
    simp [_validateArgumentType, hty, typeofIsBoolean, strictEqString]
  · rw [validateParameters_single arg cmd hargs]
    simp [_validateArgumentType, hty, typeofIsBoolean, strictEqString]
  · intro s h1 h2
    rw [validateParameters_single arg cmd hargs]
    simp [_validateArgumentType, hty, typeofIsBoolean, strictEqString, h1, h2]
  · intro v
    rcases v with s | n | b
    · simp [_validateArgumentType, hty, typeofIsBoolean, strictEqString]
      tauto
    · simp [_validateArgumentType, hty, typeofIsBoolean, strictEqString]
    · simp [_validateArgumentType, hty, typeofIsBoolean, strictEqString]

/-- A command declaring a single required boolean argument. -/
def verboseArgument : ICommandArgument :=
  { name := "verbose", description := "", type := .boolean, required := true,
    defaultValue := none }

def verboseCommand : ICommandLineEntry :=
  { name := "verbose-cmd", description := "", command := "tool",
    arguments := [verboseArgument] }

/-- C7 (witness): the boolean acceptance and rejection behaviour on the
concrete `verbose` argument. -/
theorem claim_C7_witness :
    (∀ b, validateParameters verboseCommand [(verboseArgument.name, .bool b)] = []) ∧
    validateParameters verboseCommand [(verboseArgument.name, .str "true")] = [] ∧
    validateParameters verboseCommand [(verboseArgument.name, .str "false")] = [] ∧
    (∀ s, s ≠ "true" → s ≠ "false" →
      validateParameters verboseCommand [(verboseArgument.name, .str s)] =
        ["Argument '" ++ verboseArgument.name ++ "' must be a boolean"]) ∧
    (∀ v, _validateArgumentType verboseArgument v = none ↔
      (typeofIsBoolean v || strictEqString v "true" || strictEqString v "false") = true) :=
  claim_C7 verboseArgument verboseCommand rfl rfl

/-- C8: `validateParameters` does not short-circuit — it returns the full
concatenation of one error per violated requiredness constraint and one per
violating typed entry; with `alpha` and `beta` both missing and `gamma`
supplied a non-numeric string, all three messages are returned together. -/
theorem claim_C8 (command : ICommandLineEntry) (params : ICommandExecutionParams) :
    validateParameters command params =
      command.arguments.filterMap (requiredError? params)
        ++ params.filterMap (typeError? command) ∧
    validateParameters multiCommand [("gamma", .str "abc")] =
      ["Required argument 'alpha' is missing",
       "Required argument 'beta' is missing",
       "Argument 'gamma' must be a number"] :=
  ⟨validateParameters_eq command params, by rfl⟩

/-- C9: a declared default never satisfies requiredness — a required
argument with a default that is absent from the parameter map still yields
the missing-argument error, even though `_buildCommandArguments` resolves
that same argument to its default and emits its flag/value pair. -/
theorem claim_C9 (command : ICommandLineEntry) (params : ICommandExecutionParams)
    (arg : ICommandArgument) (d : Scalar)
    (hmem : arg ∈ command.arguments) (hreq : arg.required = true)
    (hdef : arg.defaultValue = some d) (habs : getParam params arg.name = none) :
    ("Required argument '" ++ arg.name ++ "' is missing")
      ∈ validateParameters command params ∧
    resolvedValue params arg = some d ∧
    ("--" ++ arg.name, jsString d) ∈ command.arguments.filterMap (buildPair? params) ∧
    _buildCommandArguments command params =
      (command.arguments.filterMap (buildPair? params)).flatMap
        (fun pr => [pr.1, pr.2]) := by
  refine ⟨?_, ?_, ?_, buildCommandArguments_eq command params⟩
  · rw [validateParameters_eq]
    refine List.mem_append.mpr (Or.inl (List.mem_filterMap.mpr ⟨arg, hmem, ?_⟩))
    unfold requiredError?
    rw [hreq, habs]
    simp
  · unfold resolvedValue
    rw [habs, hdef]
  · refine List.mem_filterMap.mpr ⟨arg, hmem, ?_⟩
    unfold buildPair? resolvedValue
    rw [habs, hdef]
    simp

/-- A command declaring a single required string argument that also carries
a default value. -/
def modeArgument : ICommandArgument :=
  { name := "mode", description := "", type := .string, required := true,
    defaultValue := some (.str "fast") }

def modeCommand : ICommandLineEntry :=
  { name := "mode-cmd", description := "", command := "tool",
    arguments := [modeArgument] }

/-- C9 (witness): `mode` is required with default `fast`; with an empty
parameter map validation reports it missing while the builder would emit
`--mode fast`. -/
theorem claim_C9_witness :
    ("Required argument '" ++ modeArgument.name ++ "' is missing")
      ∈ validateParameters modeCommand [] ∧
    resolvedValue [] modeArgument = some (.str "fast") ∧
    ("--" ++ modeArgument.name, jsString (.str "fast"))
      ∈ modeCommand.arguments.filterMap (buildPair? []) ∧
    _buildCommandArguments modeCommand [] =
      (modeCommand.arguments.filterMap (buildPair? [])).flatMap
        (fun pr => [pr.1, pr.2]) :=
  claim_C9 modeCommand [] modeArgument (.str "fast") (by simp [modeCommand]) rfl rfl rfl

/-- C10: for a number-typed argument the check is
`typeof value !== 'number' && isNaN(Number(value))`, so any boolean is
accepted (`Number(true) = 1`, `Number(false) = 0`) and the empty string is
accepted (`Number("") = 0`); a value is accepted exactly when it is of
number type or its numeric coercion is not `NaN`, and a string whose
coercion is `NaN` is rejected with `Argument '<name>' must be a number`. -/
theorem claim_C10 (arg : ICommandArgument) (hty : arg.type = .number) :
    (∀ b, _validateArgumentType arg (.bool b) = none) ∧
    _validateArgumentType arg (.str "") = none ∧
    jsNumber (.bool true) = some 1 ∧
    jsNumber (.bool false) = some 0 ∧
    jsNumber (.str "") = some 0 ∧
    (∀ v, _validateArgumentType arg v = none ↔
      (typeofIsNumber v || (jsNumber v).isSome) = true) ∧
    (∀ s, jsNumber (.str s) = none →
      _validateArgumentType arg (.str s) =
        some ("Argument '" ++ arg.name ++ "' must be a number")) := by
  have hempty : jsNumber (.str "") = some 0 := rfl
  refine ⟨?_, ?_, rfl, rfl, rfl, ?_, ?_⟩
  · intro b
    rcases b <;> simp [_validateArgumentType, hty, typeofIsNumber, jsNumber]
  · simp [_validateArgumentType, hty, typeofIsNumber, hempty]
  · intro v
    rcases hA : typeofIsNumber v <;> rcases hj : jsNumber v with _ | n <;>
      simp [_validateArgumentType, hty, hA, hj]
  · intro s hnan
    simp [_validateArgumentType, hty, typeofIsNumber, hnan]

/-- C10 (witness): the numeric acceptance behaviour on the concrete
number-typed `gamma` argument. -/
theorem claim_C10_witness :
    (∀ b, _validateArgumentType gammaArgument (.bool b) = none) ∧
    _validateArgumentType gammaArgument (.str "") = none ∧
    jsNumber (.bool true) = some 1 ∧
    jsNumber (.bool false) = some 0 ∧
    jsNumber (.str "") = some 0 ∧
    (∀ v, _validateArgumentType gammaArgument v = none ↔
      (typeofIsNumber v || (jsNumber v).isSome) = true) ∧
    (∀ s, jsNumber (.str s) = none →
      _validateArgumentType gammaArgument (.str s) =
        some ("Argument '" ++ gammaArgument.name ++ "' must be a number")) :=
  claim_C10 gammaArgument rfl

end McpCli
